import Mathlib

/-!
# Verification of the drone simulation and media tooling repository

This file gives a shallow embedding, in Lean 4, of the four command-line
tools of the repository:

* `drone_websocket_simulator.py` — the telemetry motion generator and its
  send loop (`frames_loop`), embedded with real-number arithmetic for the
  geometry and an explicit oracle of random draws for every call the
  Python code makes into the `random` module;
* `drone_binary_image_simulator.py` — the binary image sender
  (`get_image_files`, `send_binary_images`), embedded over an abstract
  directory listing, with the send loop given explicit fuel so that
  termination is a provable statement;
* `mp4_to_frames.py` — the frame extractor (`extract_frames`), embedded as
  a fuel-indexed loop over frame indices with a decode-success oracle;
* `resize_images.py` — the batch resizer (`resize_image`,
  `resize_images_in_directory`), with the size computation over exact
  rationals (Python `int()` truncation is `pyInt`).

Exit-code paths of each tool's `main` are embedded as small total
functions of the validation / work outcomes.

Loops that the Python code drives by a mutable counter are embedded as
structural recursions on that counter (or on explicit fuel when the
Python loop's bound is data-dependent); a loop that provably returns
within its fuel models a Python loop that terminates on its own.
-/

namespace DroneSim

open Real

/-! ## Constants from `drone_websocket_simulator.py` -/

/-- `METERS_PER_DEGREE_LAT = 111_320.0`. -/
def METERS_PER_DEGREE_LAT : ℝ := 111320

/-- `IMAGE_WIDTH = 1920`. -/
def IMAGE_WIDTH : ℕ := 1920

/-- `IMAGE_HEIGHT = 1080`. -/
def IMAGE_HEIGHT : ℕ := 1080

/-- `VIEW_HALF_WIDTH_M = 600.0`. -/
def VIEW_HALF_WIDTH_M : ℝ := 600

/-- `KNOTS_TO_MPS = 0.514444` (local constant in the simulator). -/
def KNOTS_TO_MPS : ℝ := 0.514444

/-- `math.radians`. -/
noncomputable def radians (deg : ℝ) : ℝ := deg * Real.pi / 180

/-- `meters_per_degree_lon`: approximate meters per degree of longitude at a
given latitude, `METERS_PER_DEGREE_LAT * max(1e-12, abs(cos(radians(lat))))`. -/
noncomputable def meters_per_degree_lon (latitude_deg : ℝ) : ℝ :=
  METERS_PER_DEGREE_LAT * max (1 / 10 ^ 12) |Real.cos (radians latitude_deg)|

/-- `position_on_circle`: latitude/longitude of the point at `angle_rad` on the
circle of radius `radius_m` around `(center_lat, center_lon)`. -/
noncomputable def position_on_circle (center_lat center_lon radius_m angle_rad : ℝ) :
    ℝ × ℝ :=
  (center_lat + radius_m * Real.sin angle_rad / METERS_PER_DEGREE_LAT,
   center_lon + radius_m * Real.cos angle_rad / meters_per_degree_lon center_lat)

/-- Python's float `%` for a positive modulus: `x - p * ⌊x / p⌋`, lying in
`[0, p)` when `p > 0`. -/
noncomputable def fmod (x p : ℝ) : ℝ := x - p * ⌊x / p⌋

/-! ## Data model of the telemetry simulator -/

/-- The kinematic mode of a track: `"circle"` or `"straight"` in the source. -/
inductive Motion where
  | circle : Motion
  | straight : Motion
deriving DecidableEq

/-- The `DroneState` dataclass. -/
structure DroneState where
  drone_id : String
  type : String
  motion : Motion
  angle_rad : ℝ
  bearing_rad : ℝ
  radius_m : ℝ
  speed_base_mps : ℝ
  lat : ℝ
  lon : ℝ
  base_alt_m : ℝ
  wobble_m : ℝ

/-- The arguments of the simulator that the send loop reads
(after `validate_args` accepted them). -/
structure SimArgs where
  center_lat : ℝ
  center_lon : ℝ
  interval_s : ℝ
  miss_rate : ℝ
  false_positive_rate : ℝ
  noise_level_m : ℝ
  altitude_m : ℝ
  cam_id : String
  token : String

/-- One detection object of a frame payload. -/
structure DetObject where
  obj_id : String
  type : String
  lat : ℝ
  lng : ℝ
  alt : ℝ
  speed_kt : ℝ

/-- The `image_info` descriptor of a frame payload. -/
structure ImageInfo where
  width : ℕ
  height : ℕ

/-- One JSON frame payload sent by `frames_loop`. -/
structure Frame where
  fram_id : String
  cam_id : String
  token_id : String
  timestamp : String
  image_info : ImageInfo
  objects : List DetObject

/-- The random draws and clock reads the loop body makes for one track on one
tick, in source order: `random.uniform(0.9, 1.1)` (speed factor), two
`random.gauss(0.0, noise_level_m)` (GPS noise), `time.time()`,
`random.uniform(-2.0, 2.0)` (altitude variation), `random.random()`
(missed-detection draw, in `[0, 1)`). -/
structure DroneDraws where
  speed_factor : ℝ
  noise_north_m : ℝ
  noise_east_m : ℝ
  time_now : ℝ
  alt_variation : ℝ
  miss_draw : ℝ

/-- The per-frame draws for the false-positive branch: `random.random()`
(the gate, in `[0, 1)`), two `random.uniform(-VIEW_HALF_WIDTH_M,
VIEW_HALF_WIDTH_M)` offsets, `random.uniform(0.0, 2.0)` (speed),
`random.uniform(-5.0, 5.0)` (altitude jitter), and `uuid.uuid4().hex[:6]`. -/
structure FpDraws where
  fp_draw : ℝ
  dx : ℝ
  dy : ℝ
  speed_fp_mps : ℝ
  alt_jitter : ℝ
  fp_hex : String

/-- Everything one tick of the loop samples from the outside world: one
`DroneDraws` per track (indexed in iteration order), the false-positive
draws, and `datetime.now(timezone.utc).isoformat()`. -/
structure TickDraws where
  drone : ℕ → DroneDraws
  fp : FpDraws
  timestamp : String

/-- Python's `round(x, k)`: round to `k` decimal places. -/
noncomputable def round_to (k : ℕ) (x : ℝ) : ℝ := (round (x * 10 ^ k) : ℤ) / 10 ^ k

/-- The per-track body of `frames_loop`'s `for st in states` loop: update the
track's kinematic state, apply noise and wobble, and produce the detection
object unless the missed-detection draw fires. Returns the updated state and
the optional object. -/
noncomputable def step_drone (args : SimArgs) (st : DroneState) (d : DroneDraws) :
    DroneState × Option DetObject :=
  let current_speed_mps := st.speed_base_mps * d.speed_factor
  let current_speed_kt := current_speed_mps / KNOTS_TO_MPS
  let upd : DroneState × ℝ × ℝ :=
    match st.motion with
    | .circle =>
        let angle :=
          fmod (st.angle_rad + current_speed_mps / st.radius_m * args.interval_s)
            (2 * Real.pi)
        let p := position_on_circle args.center_lat args.center_lon st.radius_m angle
        ({ st with angle_rad := angle }, p.1, p.2)
    | .straight =>
        let delta_north_m := current_speed_mps * args.interval_s * Real.cos st.bearing_rad
        let delta_east_m := current_speed_mps * args.interval_s * Real.sin st.bearing_rad
        let lat' := st.lat + delta_north_m / METERS_PER_DEGREE_LAT
        let lon' := st.lon + delta_east_m / meters_per_degree_lon lat'
        ({ st with lat := lat', lon := lon' }, lat', lon')
  let st2 := upd.1
  let noisy : ℝ × ℝ :=
    if args.noise_level_m > 0 then
      let latn := upd.2.1 + d.noise_north_m / METERS_PER_DEGREE_LAT
      (latn, upd.2.2 + d.noise_east_m / meters_per_degree_lon latn)
    else (upd.2.1, upd.2.2)
  let wobble_phase := match st.motion with
    | .circle => st2.angle_rad
    | .straight => d.time_now
  let alt := st.base_alt_m + st.wobble_m * Real.sin wobble_phase + d.alt_variation
  let obj : Option DetObject :=
    if d.miss_draw < args.miss_rate then none
    else some
      { obj_id := st.drone_id, type := st.type,
        lat := round_to 7 noisy.1, lng := round_to 7 noisy.2,
        alt := round_to 2 alt, speed_kt := round_to 2 current_speed_kt }
  (st2, obj)

/-- The whole `for st in states` loop of one tick: steps every track with its
draws and collects the non-missed detection objects in track order. -/
noncomputable def step_drones (args : SimArgs) :
    List DroneState → (ℕ → DroneDraws) → List DroneState × List DetObject
  | [], _ => ([], [])
  | st :: rest, ds =>
      let head := step_drone args st (ds 0)
      let tail := step_drones args rest (fun i => ds (i + 1))
      (head.1 :: tail.1,
        match head.2 with
        | some o => o :: tail.2
        | none => tail.2)

/-- The false-positive object appended when the gate draw fires. -/
noncomputable def false_positive_object (args : SimArgs) (f : FpDraws) : DetObject :=
  { obj_id := "fp-" ++ f.fp_hex, type := "unknown",
    lat := round_to 7 (args.center_lat + f.dy / METERS_PER_DEGREE_LAT),
    lng := round_to 7 (args.center_lon + f.dx / meters_per_degree_lon args.center_lat),
    alt := round_to 2 (args.altitude_m + f.alt_jitter),
    speed_kt := round_to 2 (f.speed_fp_mps / KNOTS_TO_MPS) }

/-- One tick of `frames_loop`: step all tracks, then possibly append one
false-positive object. Returns the updated states and the tick's object
list. -/
noncomputable def tick_objects (args : SimArgs) (states : List DroneState)
    (td : TickDraws) : List DroneState × List DetObject :=
  let stepped := step_drones args states td.drone
  (stepped.1,
    if td.fp.fp_draw < args.false_positive_rate then
      stepped.2 ++ [false_positive_object args td.fp]
    else stepped.2)

/-- The frame payload built at the end of a tick. -/
def tick_frame (args : SimArgs) (frame_id : ℕ) (timestamp : String)
    (objects : List DetObject) : Frame :=
  { fram_id := toString frame_id, cam_id := args.cam_id, token_id := args.token,
    timestamp := timestamp,
    image_info := { width := IMAGE_WIDTH, height := IMAGE_HEIGHT },
    objects := objects }

/-- The send loop of `frames_loop` for a requested update count, as a
recursion on `updates_remaining` (the Python loop decrements it by one per
sent frame and exits when it reaches `0`): the returned list is the sequence
of frame payloads sent over the socket, in order. `frame_id` starts at `0`
and increments once per sent frame. -/
noncomputable def frames_loop_run (args : SimArgs) (draws : ℕ → TickDraws) :
    ℕ → List DroneState → ℕ → List Frame
  | 0, _, _ => []
  | n + 1, states, frame_id =>
      let t := tick_objects args states (draws frame_id)
      tick_frame args frame_id (draws frame_id).timestamp t.2
        :: frames_loop_run args draws n t.1 (frame_id + 1)

/-- The state of the track list before tick `n` of the loop (so `states_at 0`
is the initial list from `init_frames_states`, and `states_at (n+1)` is the
list after the `n`-th tick mutated every track). -/
noncomputable def states_at (args : SimArgs) (draws : ℕ → TickDraws)
    (init : List DroneState) : ℕ → List DroneState
  | 0 => init
  | n + 1 => (tick_objects args (states_at args draws init n) (draws n)).1

/-! ## The binary image sender (`drone_binary_image_simulator.py`) -/

/-- What `get_image_files` observes about one entry of the frames directory:
its name, whether it is a regular file, its extension, and whether reading it
back with `open(..., 'rb')` will succeed at send time. -/
structure DirEntry where
  name : String
  is_file : Bool
  suffix : String
  readable : Bool
deriving DecidableEq

/-- The extension set `{'.png', '.jpg', '.jpeg', '.PNG', '.JPG', '.JPEG'}`. -/
def image_extensions : List String :=
  [".png", ".jpg", ".jpeg", ".PNG", ".JPG", ".JPEG"]

/-- `get_image_files`: keep the regular files with an image extension and
sort them by name (ascending). -/
def get_image_files (entries : List DirEntry) : List DirEntry :=
  (entries.filter fun f => f.is_file && image_extensions.contains f.suffix).mergeSort
    fun a b => decide (a.name ≤ b.name)

/-- `updates_remaining -= 1` under Python truthiness (`None` stays `None`). -/
def dec_updates : Option ℕ → Option ℕ
  | none => none
  | some k => some (k - 1)

/-- The send loop of `send_binary_images`, with explicit fuel: one fuel unit
per iteration of the `while` loop. The result is `some sent` — the list of
files sent, in order — when the loop exits on its own within the fuel, and
`none` when the fuel runs out first. An unreadable file is skipped
(`continue`) without sending and without decrementing `updates_remaining`;
when `image_index` passes the end of the list the loop either wraps (with
`--loop`) or breaks. -/
def send_loop (files : List DirEntry) (loop_flag : Bool) :
    ℕ → Option ℕ → ℕ → Option (List DirEntry)
  | 0, _, _ => none
  | fuel + 1, ur, idx =>
      if ur = some 0 then some []
      else if files.length ≤ idx then
        if loop_flag then send_loop files loop_flag fuel ur 0 else some []
      else
        match files.get? idx with
        | none => some []
        | some f =>
            if f.readable then
              match send_loop files loop_flag fuel (dec_updates ur) (idx + 1) with
              | none => none
              | some rest => some (f :: rest)
            else send_loop files loop_flag fuel ur (idx + 1)

/-- Exit outcome of a simulator's send loop (which exception, if any, ended
it): normal completion, server-closed connection, keyboard interrupt — all
returning `0` — or a generic exception, returning `1`. -/
inductive LoopEnd where
  | completed : LoopEnd
  | connection_closed : LoopEnd
  | interrupted : LoopEnd
  | errored : LoopEnd
deriving DecidableEq

/-- Return value of a simulator loop as a process exit code. -/
def loop_exit_code : LoopEnd → ℕ
  | .errored => 1
  | _ => 0

/-- Exit code of `drone_websocket_simulator.main`: `2` when `validate_args`
rejects, else `1` when the connection cannot be opened, else the loop's
return value. -/
def telemetry_main_exit (args_valid connect_ok : Bool) (outcome : LoopEnd) : ℕ :=
  if args_valid = false then 2
  else if connect_ok = false then 1
  else loop_exit_code outcome

/-- Exit code of `drone_binary_image_simulator.main`: `2` on invalid
arguments, `1` when the connection fails or the frames directory yields no
readable listing, else the loop outcome. -/
def binary_main_exit (args_valid connect_ok files_ok : Bool) (outcome : LoopEnd) : ℕ :=
  if args_valid = false then 2
  else if connect_ok = false then 1
  else if files_ok = false then 1
  else loop_exit_code outcome

/-! ## The frame extractor (`mp4_to_frames.py`) -/

/-- Python's `int()` on an exact rational: truncation toward zero. -/
def pyInt (q : ℚ) : ℤ := if 0 ≤ q then ⌊q⌋ else ⌈q⌉

/-- `frame_step = max(1, int(interval * fps)) if interval else 1`, with
Python truthiness (`None` and `0.0` both fall to the `else`). -/
def frame_step (interval : Option ℚ) (fps : ℚ) : ℕ :=
  match interval with
  | some i => if i = 0 then 1 else max 1 (pyInt (i * fps)).toNat
  | none => 1

/-- `start_frame = max(0, min(int(start_time * fps) if start_time > 0 else 0,
total_frames - 1))`. -/
def start_frame_of (start_time fps : ℚ) (total_frames : ℕ) : ℕ :=
  let s : ℤ := if 0 < start_time then pyInt (start_time * fps) else 0
  (max 0 (min s ((total_frames : ℤ) - 1))).toNat

/-- `end_frame = max(start_frame + 1, min(int(end_time * fps) if end_time
else total_frames, total_frames))`. -/
def end_frame_of (end_time : Option ℚ) (fps : ℚ) (total_frames start_frame : ℕ) : ℕ :=
  let e : ℤ := match end_time with
    | some t => if t = 0 then (total_frames : ℤ) else pyInt (t * fps)
    | none => (total_frames : ℤ)
  (max ((start_frame : ℤ) + 1) (min e (total_frames : ℤ))).toNat

/-- `if max_frames and saved_count >= max_frames` (Python truthiness:
`None` and `0` are both falsy). -/
def max_reached : Option ℕ → ℕ → Bool
  | none, _ => false
  | some m, s => if m = 0 then false else decide (m ≤ s)

/-- The extraction `while` loop of `extract_frames`, with one fuel unit per
frame index between `current` and `end_frame` (the loop advances
`current_frame` by one each iteration, so `end_frame - current` fuel is
exact). `read_ok` tells whether `cap.read()` succeeds on a frame index; a
failed read breaks the loop. The result is the list of frame indices whose
image files are written, in order. -/
def extract_loop (step : ℕ) (max_frames : Option ℕ) (read_ok : ℕ → Bool) :
    ℕ → ℕ → ℕ → ℕ → List ℕ
  | 0, _, _, _ => []
  | fuel + 1, current, frame_count, saved_count =>
      if read_ok current then
        if frame_count % step = 0 then
          if max_reached max_frames (saved_count + 1) then [current]
          else current ::
            extract_loop step max_frames read_ok fuel (current + 1) (frame_count + 1)
              (saved_count + 1)
        else extract_loop step max_frames read_ok fuel (current + 1) (frame_count + 1)
          saved_count
      else []

/-- The frame indices saved by `extract_frames` between `start_f` and
`end_f` with the given step, `--max-frames` bound and decode oracle. -/
def extract_saved (start_f end_f step : ℕ) (max_frames : Option ℕ)
    (read_ok : ℕ → Bool) : List ℕ :=
  extract_loop step max_frames read_ok (end_f - start_f) start_f 0 0

/-- Exit code of `mp4_to_frames.main`: `1` when `validate_args` rejects
(note: not `2`), else `0` exactly when at least one frame was saved. -/
def mp4_main_exit (args_valid : Bool) (saved_count : ℕ) : ℕ :=
  if args_valid = false then 1
  else if 0 < saved_count then 0 else 1

/-! ## The batch resizer (`resize_images.py`) -/

/-- Python truthiness of an optional integer argument (`None` and `0` are
falsy). -/
def truthy : Option ℕ → Bool
  | none => false
  | some n => !(n == 0)

/-- The destination-size computation of `resize_image`: an explicit
`target_size` wins; else a `target_width` derives the height from the aspect
ratio with `int(original_height * (target_width / original_width))`; else a
`target_height` symmetrically; else the call fails (returns `False`). -/
def resize_image_size (orig_w orig_h : ℕ) (target_size : Option (ℕ × ℕ))
    (target_width target_height : Option ℕ) : Option (ℕ × ℕ) :=
  if target_size.isSome then target_size
  else if truthy target_width then
    let w := target_width.getD 0
    some (w, (pyInt ((orig_h : ℚ) * ((w : ℚ) / (orig_w : ℚ)))).toNat)
  else if truthy target_height then
    let h := target_height.getD 0
    some ((pyInt ((orig_w : ℚ) * ((h : ℚ) / (orig_h : ℚ)))).toNat, h)
  else none

/-- The per-file loop of `resize_images_in_directory`, over the per-file
success of `resize_image` (which catches every exception and returns a
boolean): returns `(success_count, attempted_count)`. Every file is
attempted; a failed file merely fails to increment the success count. -/
def resize_batch : List Bool → ℕ × ℕ
  | [] => (0, 0)
  | ok :: rest =>
      let t := resize_batch rest
      ((if ok then 1 else 0) + t.1, 1 + t.2)

/-- Exit code of `resize_images.main`: `1` when `validate_args` rejects
(note: not `2`), else `0` exactly when at least one image was resized. -/
def resize_main_exit (args_valid : Bool) (success_count : ℕ) : ℕ :=
  if args_valid = false then 1
  else if 0 < success_count then 0 else 1

/-! ## Decimal-string helpers

`fram_id` is `str(frame_id)`; to reason about uniqueness of the identifiers
we verify that `Nat.repr` is injective by exhibiting its left inverse, the
base-10 evaluation of the digit string. -/

/-- Evaluate a digit string (most significant first) on top of `acc`. -/
def digits_val (acc : ℕ) : List Char → ℕ
  | [] => acc
  | c :: cs => digits_val (acc * 10 + (c.toNat - 48)) cs

/-! ## Concrete sample inputs used by the witnesses -/

/-- Sample arguments: scene centered at the origin, one-second ticks, zero
miss/false-positive rates, no GPS noise. -/
noncomputable def sampleArgs : SimArgs :=
  { center_lat := 0, center_lon := 0, interval_s := 1, miss_rate := 0,
    false_positive_rate := 0, noise_level_m := 0, altitude_m := 120,
    cam_id := "cam", token := "tok" }

/-- A sample orbiting track with unit radius and unit base speed. -/
noncomputable def sampleDrone : DroneState :=
  { drone_id := "sim-1", type := "unknown", motion := .circle, angle_rad := 0,
    bearing_rad := 0, radius_m := 1, speed_base_mps := 1, lat := 0, lon := 0,
    base_alt_m := 120, wobble_m := 8 }

/-- Sample per-track draws: unit speed factor, all noise terms `1/2`,
miss draw `1/2`. -/
noncomputable def sampleDroneDraws : DroneDraws :=
  { speed_factor := 1, noise_north_m := 1/2, noise_east_m := 1/2,
    time_now := 1/2, alt_variation := 1/2, miss_draw := 1/2 }

/-- Sample per-tick draws: the false-positive gate draw is `1/2`. -/
noncomputable def sampleTickDraws : TickDraws :=
  { drone := fun _ => sampleDroneDraws,
    fp := { fp_draw := 1/2, dx := 0, dy := 0, speed_fp_mps := 0, alt_jitter := 0,
            fp_hex := "abcdef" },
    timestamp := "2026-01-01T00:00:00+00:00" }

/-! ## Helper lemmas -/

/-- Python's float modulo by a positive modulus is nonnegative. -/
theorem fmod_nonneg {p : ℝ} (hp : 0 < p) (x : ℝ) : 0 ≤ fmod x p := by
  have h := Int.floor_le (x / p)
  have hx : p * ⌊x / p⌋ ≤ x := by
    calc p * (⌊x / p⌋ : ℝ) ≤ p * (x / p) := mul_le_mul_of_nonneg_left h (le_of_lt hp)
      _ = x := by field_simp
  simpa [fmod] using sub_nonneg.mpr hx

/-- Python's float modulo by a positive modulus is below the modulus. -/
theorem fmod_lt {p : ℝ} (hp : 0 < p) (x : ℝ) : fmod x p < p := by
  have h := Int.lt_floor_add_one (x / p)
  have hx : x < p * ⌊x / p⌋ + p := by
    calc x = p * (x / p) := by field_simp
      _ < p * ((⌊x / p⌋ : ℝ) + 1) := mul_lt_mul_of_pos_left h hp
      _ = p * ⌊x / p⌋ + p := by ring
  have h2 : x - p * ⌊x / p⌋ < p := by linarith
  simpa [fmod] using h2

/-- Stepping a track never changes its kinematic mode. -/
theorem step_drone_motion (args : SimArgs) (st : DroneState) (d : DroneDraws) :
    (step_drone args st d).1.motion = st.motion := by
  cases h : st.motion <;> simp [step_drone, h]

/-- For an orbiting track, stepping updates the phase angle to
`(angle + current_speed / radius * dt) mod 2π`. -/
theorem step_drone_angle (args : SimArgs) (st : DroneState) (d : DroneDraws)
    (h : st.motion = .circle) :
    (step_drone args st d).1.angle_rad =
      fmod (st.angle_rad + st.speed_base_mps * d.speed_factor / st.radius_m *
        args.interval_s) (2 * Real.pi) := by
  simp [step_drone, h]

/-- Stepping a track yields a detection object exactly when the
missed-detection draw does not fire. -/
theorem step_drone_obj (args : SimArgs) (st : DroneState) (d : DroneDraws) :
    (step_drone args st d).2.isSome = !decide (d.miss_draw < args.miss_rate) := by
  cases h : st.motion <;> simp [step_drone, h] <;> split_ifs <;> simp_all

/-- Stepping a track list preserves its length (a tick never adds or removes
a track). -/
theorem step_drones_fst_length (args : SimArgs) :
    ∀ (states : List DroneState) (ds : ℕ → DroneDraws),
      (step_drones args states ds).1.length = states.length
  | [], _ => rfl
  | _ :: rest, ds => by
      simp [step_drones, step_drones_fst_length args rest]

/-- Every track of a stepped list is the step of some track of the input
list, with some draws. -/
theorem step_drones_fst_mem (args : SimArgs) :
    ∀ (states : List DroneState) (ds : ℕ → DroneDraws) (st' : DroneState),
      st' ∈ (step_drones args states ds).1 →
        ∃ st d, st ∈ states ∧ st' = (step_drone args st d).1
  | [], _, _, h => by simp [step_drones] at h
  | st :: rest, ds, st', h => by
      simp only [step_drones, List.mem_cons] at h
      rcases h with h | h
      · exact ⟨st, ds 0, List.mem_cons_self st rest, h⟩
      · obtain ⟨s, d, hs, he⟩ := step_drones_fst_mem args rest (fun i => ds (i + 1)) st' h
        exact ⟨s, d, List.mem_cons_of_mem st hs, he⟩

/-- Each track contributes at most one detection object per tick. -/
theorem step_drones_snd_length_le (args : SimArgs) :
    ∀ (states : List DroneState) (ds : ℕ → DroneDraws),
      (step_drones args states ds).2.length ≤ states.length
  | [], _ => le_refl 0
  | st :: rest, ds => by
      have ih := step_drones_snd_length_le args rest (fun i => ds (i + 1))
      simp only [step_drones]
      cases h : (step_drone args st (ds 0)).2 <;> simp [h] <;> omega

/-- With a zero miss rate and draws from `[0, 1)`, every track contributes
exactly one detection object per tick. -/
theorem step_drones_snd_length_eq (args : SimArgs) (h0 : args.miss_rate = 0) :
    ∀ (states : List DroneState) (ds : ℕ → DroneDraws),
      (∀ i, 0 ≤ (ds i).miss_draw) →
      (step_drones args states ds).2.length = states.length
  | [], _, _ => rfl
  | st :: rest, ds, hnn => by
      have ih := step_drones_snd_length_eq args h0 rest (fun i => ds (i + 1))
        (fun i => hnn (i + 1))
      have hobj : (step_drone args st (ds 0)).2.isSome = true := by
        rw [step_drone_obj]
        simp [h0, not_lt.mpr (hnn 0)]
      simp only [step_drones]
      cases h : (step_drone args st (ds 0)).2
      · rw [h] at hobj; simp at hobj
      · simp [ih]

/-- A tick preserves the number of tracks. -/
theorem tick_objects_fst_length (args : SimArgs) (states : List DroneState)
    (td : TickDraws) : (tick_objects args states td).1.length = states.length := by
  simp [tick_objects, step_drones_fst_length]

/-- A tick's object list has length at most (track count + 1). -/
theorem tick_objects_snd_length_le (args : SimArgs) (states : List DroneState)
    (td : TickDraws) :
    (tick_objects args states td).2.length ≤ states.length + 1 := by
  have h := step_drones_snd_length_le args states td.drone
  simp only [tick_objects]
  split_ifs <;> simp <;> omega

/-- With zero miss and false-positive rates and draws from `[0, 1)`, a
tick's object list has length exactly the track count. -/
theorem tick_objects_snd_length_eq (args : SimArgs) (states : List DroneState)
    (td : TickDraws) (h0 : args.miss_rate = 0) (hf : args.false_positive_rate = 0)
    (hnn : ∀ i, 0 ≤ (td.drone i).miss_draw) (hfp : 0 ≤ td.fp.fp_draw) :
    (tick_objects args states td).2.length = states.length := by
  have h := step_drones_snd_length_eq args h0 states td.drone hnn
  simp only [tick_objects]
  rw [if_neg (by simpa [hf] using not_lt.mpr hfp)]
  exact h

/-- The run sends one frame per remaining update. -/
theorem frames_loop_run_length (args : SimArgs) (draws : ℕ → TickDraws) :
    ∀ (n : ℕ) (states : List DroneState) (fid : ℕ),
      (frames_loop_run args draws n states fid).length = n
  | 0, _, _ => rfl
  | n + 1, states, fid => by
      simp [frames_loop_run, frames_loop_run_length args draws n]

/-- The `k`-th frame of a run started at `fid` has `fram_id = str(fid + k)`. -/
theorem frames_loop_run_get? (args : SimArgs) (draws : ℕ → TickDraws) :
    ∀ (n : ℕ) (states : List DroneState) (fid k : ℕ) (f : Frame),
      (frames_loop_run args draws n states fid).get? k = some f →
      f.fram_id = Nat.repr (fid + k)
  | 0, _, _, _, _, h => by simp [frames_loop_run] at h
  | n + 1, states, fid, 0, f, h => by
      simp only [frames_loop_run, List.get?_cons_zero, Option.some.injEq] at h
      subst h
      rfl
  | n + 1, states, fid, k + 1, f, h => by
      simp only [frames_loop_run, List.get?_cons_succ] at h
      have := frames_loop_run_get? args draws n
        (tick_objects args states (draws fid)).1 (fid + 1) k f h
      rw [this]
      congr 1
      omega

/-- Every frame of a run carries the object list of one tick on a state list
of the initial length. -/
theorem frames_loop_run_mem (args : SimArgs) (draws : ℕ → TickDraws) :
    ∀ (n : ℕ) (states : List DroneState) (fid : ℕ) (f : Frame),
      f ∈ frames_loop_run args draws n states fid →
      ∃ (s : List DroneState) (m : ℕ), s.length = states.length ∧
        f.objects = (tick_objects args s (draws m)).2
  | 0, _, _, _, h => by simp [frames_loop_run] at h
  | n + 1, states, fid, f, h => by
      simp only [frames_loop_run, List.mem_cons] at h
      rcases h with h | h
      · refine ⟨states, fid, rfl, ?_⟩
        rw [h]
        rfl
      · obtain ⟨s, m, hs, ho⟩ := frames_loop_run_mem args draws n
          (tick_objects args states (draws fid)).1 (fid + 1) f h
        exact ⟨s, m, by rw [hs, tick_objects_fst_length], ho⟩

/-- The base-10 digit characters evaluate back to their value. -/
theorem digitChar_val {m : ℕ} (h : m < 10) : (Nat.digitChar m).toNat - 48 = m := by
  interval_cases m <;> rfl

/-- Unfolding lemma for one step of `Nat.toDigitsCore`. -/
theorem toDigitsCore_succ (b fuel n : ℕ) (ds : List Char) :
    Nat.toDigitsCore b (fuel + 1) n ds =
      if n / b = 0 then Nat.digitChar (n % b) :: ds
      else Nat.toDigitsCore b fuel (n / b) (Nat.digitChar (n % b) :: ds) := rfl

/-- Unfolding lemma for `digits_val` on a cons cell. -/
theorem digits_val_cons (acc : ℕ) (c : Char) (cs : List Char) :
    digits_val acc (c :: cs) = digits_val (acc * 10 + (c.toNat - 48)) cs := rfl

/-- `Nat.toDigitsCore` prepended to `ds` evaluates, from accumulator `0`, to
continuing `ds` from accumulator `n`. -/
theorem digits_val_toDigitsCore :
    ∀ (fuel n : ℕ) (ds : List Char), n < 10 ^ fuel →
      digits_val 0 (Nat.toDigitsCore 10 fuel n ds) = digits_val n ds
  | 0, n, ds, h => by
      have : n = 0 := by omega
      simp [Nat.toDigitsCore, this]
  | fuel + 1, n, ds, h => by
      have hlt : n % 10 < 10 := Nat.mod_lt _ (by norm_num)
      by_cases hz : n / 10 = 0
      · have hn : n < 10 := by omega
        rw [toDigitsCore_succ, if_pos hz, digits_val_cons, digitChar_val hlt]
        congr 1
        omega
      · have hd : n / 10 < 10 ^ fuel := by
          rw [Nat.div_lt_iff_lt_mul (by norm_num)]
          calc n < 10 ^ (fuel + 1) := h
            _ = 10 ^ fuel * 10 := by ring
        rw [toDigitsCore_succ, if_neg hz,
          digits_val_toDigitsCore fuel (n / 10) _ hd, digits_val_cons,
          digitChar_val hlt]
        congr 1
        omega

/-- Evaluating the decimal representation recovers the number:
`digits_val 0` is a left inverse of `Nat.repr`. -/
theorem digits_val_repr (n : ℕ) : digits_val 0 (Nat.repr n).data = n := by
  have h : n < 10 ^ (n + 1) := by
    calc n < 2 ^ n := Nat.lt_two_pow n
      _ ≤ 10 ^ n := Nat.pow_le_pow_left (by norm_num) n
      _ ≤ 10 ^ (n + 1) := Nat.pow_le_pow_right (by norm_num) (Nat.le_succ n)
  have h2 := digits_val_toDigitsCore (n + 1) n [] h
  calc digits_val 0 (Nat.repr n).data
      = digits_val 0 (Nat.toDigitsCore 10 (n + 1) n []) := rfl
    _ = digits_val n [] := h2
    _ = n := rfl

/-- Distinct naturals have distinct decimal strings. -/
theorem nat_repr_injective {m n : ℕ} (h : Nat.repr m = Nat.repr n) : m = n := by
  have := congrArg (fun s => digits_val 0 s.data) h
  simpa [digits_val_repr] using this

/-- The first frame payload of a run over the sample inputs. -/
noncomputable def sampleFrame0 : Frame :=
  tick_frame sampleArgs 0 sampleTickDraws.timestamp
    (tick_objects sampleArgs [sampleDrone] sampleTickDraws).2

/-! ## Claim theorems for the telemetry simulator -/

/-- Claim C1: for every requested update count `N > 0`, an uninterrupted run
of the telemetry send loop whose connection stays open sends exactly `N`
JSON frame messages (one per tick) and then terminates the loop (the
embedding's recursion on `updates_remaining` returns after exactly `N`
sends). -/
theorem frames_loop_sends_exactly (args : SimArgs) (draws : ℕ → TickDraws)
    (init : List DroneState) (N : ℕ) (_h : 0 < N) :
    (frames_loop_run args draws N init 0).length = N :=
  frames_loop_run_length args draws N init 0

/-- Witness for C1 at `--updates 5` over the sample scene. -/
theorem frames_loop_sends_exactly_witness :
    0 < 5 ∧
      (frames_loop_run sampleArgs (fun _ => sampleTickDraws) 5 [sampleDrone] 0).length
        = 5 :=
  ⟨by norm_num,
    frames_loop_sends_exactly sampleArgs (fun _ => sampleTickDraws) [sampleDrone] 5
      (by norm_num)⟩

/-- Claim C2: every emitted frame's object list has length between `0` and
(number of drones + 1): each track contributes at most one detection and at
most one false positive is appended; with `miss_rate = 0` and
`false_positive_rate = 0` (and the `random.random()` draws in `[0, 1)`, so
nonnegative) every frame has exactly `num_drones` objects. -/
theorem frame_objects_length_bounds (args : SimArgs) (draws : ℕ → TickDraws)
    (init : List DroneState) (N : ℕ) (f : Frame)
    (hf : f ∈ frames_loop_run args draws N init 0) :
    f.objects.length ≤ init.length + 1 ∧
      (args.miss_rate = 0 → args.false_positive_rate = 0 →
        (∀ n i, 0 ≤ ((draws n).drone i).miss_draw) →
        (∀ n, 0 ≤ (draws n).fp.fp_draw) →
        f.objects.length = init.length) := by
  obtain ⟨s, m, hs, ho⟩ := frames_loop_run_mem args draws N init 0 f hf
  constructor
  · rw [ho, ← hs]
    exact tick_objects_snd_length_le args s (draws m)
  · intro h0 hfp hnn hfd
    rw [ho, ← hs]
    exact tick_objects_snd_length_eq args s (draws m) h0 hfp (hnn m) (hfd m)

/-- Witness for C2: with 1 drone and zero rates the first frame of the
sample run has exactly 1 object (and at most 2). -/
theorem frame_objects_length_bounds_witness :
    sampleFrame0.objects.length ≤ 2 ∧ sampleFrame0.objects.length = 1 := by
  have h := frame_objects_length_bounds sampleArgs (fun _ => sampleTickDraws)
    [sampleDrone] 1 sampleFrame0 (List.mem_singleton.mpr rfl)
  have hnn : ∀ n i : ℕ, 0 ≤ (((fun _ => sampleTickDraws) n).drone i).miss_draw := by
    intro n i
    norm_num [sampleTickDraws, sampleDroneDraws]
  have hfd : ∀ n : ℕ, 0 ≤ ((fun _ => sampleTickDraws) n).fp.fp_draw := by
    intro n
    norm_num [sampleTickDraws]
  exact ⟨by simpa using h.1, by simpa using h.2 rfl rfl hnn hfd⟩

/-- Claim C3: on every tick, an orbiting track's new phase angle is the old
angle plus (current speed / orbit radius) × tick interval, reduced modulo
`2π`; hence the phase angle lies in `[0, 2π)` after every update, and in
every reachable state of the loop (any tick count `n ≥ 1`). -/
theorem circle_angle_update (args : SimArgs) :
    (∀ (st : DroneState) (d : DroneDraws), st.motion = .circle →
      (step_drone args st d).1.angle_rad =
        fmod (st.angle_rad + st.speed_base_mps * d.speed_factor / st.radius_m *
          args.interval_s) (2 * Real.pi) ∧
      0 ≤ (step_drone args st d).1.angle_rad ∧
      (step_drone args st d).1.angle_rad < 2 * Real.pi) ∧
    ∀ (draws : ℕ → TickDraws) (init : List DroneState) (n : ℕ), 1 ≤ n →
      ∀ st' ∈ states_at args draws init n, st'.motion = .circle →
        0 ≤ st'.angle_rad ∧ st'.angle_rad < 2 * Real.pi := by
  have hpi : (0 : ℝ) < 2 * Real.pi := by positivity
  have main : ∀ (st : DroneState) (d : DroneDraws), st.motion = .circle →
      (step_drone args st d).1.angle_rad =
        fmod (st.angle_rad + st.speed_base_mps * d.speed_factor / st.radius_m *
          args.interval_s) (2 * Real.pi) ∧
      0 ≤ (step_drone args st d).1.angle_rad ∧
      (step_drone args st d).1.angle_rad < 2 * Real.pi := by
    intro st d h
    refine ⟨step_drone_angle args st d h, ?_⟩
    rw [step_drone_angle args st d h]
    exact ⟨fmod_nonneg hpi _, fmod_lt hpi _⟩
  refine ⟨main, ?_⟩
  intro draws init n hn st' hmem hc
  cases n with
  | zero => omega
  | succ m =>
      have hm2 : st' ∈ (step_drones args (states_at args draws init m)
          (draws m).drone).1 := by
        simpa [states_at, tick_objects] using hmem
      obtain ⟨st, d, _, he⟩ := step_drones_fst_mem args _ _ st' hm2
      have hcm : st.motion = .circle := by
        rw [he] at hc
        rwa [step_drone_motion] at hc
      have hall := main st d hcm
      rw [he]
      exact hall.2

/-- Witness for C3 at the sample orbiting drone: one update lands the phase
angle in `[0, 2π)` and equals the mod-`2π` update, both for the raw step and
for the state reachable after one tick. -/
theorem circle_angle_update_witness :
    ((step_drone sampleArgs sampleDrone sampleDroneDraws).1.angle_rad =
      fmod (sampleDrone.angle_rad +
        sampleDrone.speed_base_mps * sampleDroneDraws.speed_factor /
          sampleDrone.radius_m * sampleArgs.interval_s) (2 * Real.pi) ∧
      0 ≤ (step_drone sampleArgs sampleDrone sampleDroneDraws).1.angle_rad ∧
      (step_drone sampleArgs sampleDrone sampleDroneDraws).1.angle_rad
        < 2 * Real.pi) ∧
    (0 ≤ (step_drone sampleArgs sampleDrone sampleDroneDraws).1.angle_rad ∧
      (step_drone sampleArgs sampleDrone sampleDroneDraws).1.angle_rad
        < 2 * Real.pi) := by
  have h := circle_angle_update sampleArgs
  refine ⟨h.1 sampleDrone sampleDroneDraws rfl, ?_⟩
  refine h.2 (fun _ => sampleTickDraws) [sampleDrone] 1 (by norm_num)
    (step_drone sampleArgs sampleDrone sampleDroneDraws).1 ?_ ?_
  · show (step_drone sampleArgs sampleDrone sampleDroneDraws).1 ∈
      (tick_objects sampleArgs [sampleDrone] sampleTickDraws).1
    simp [tick_objects, step_drones, sampleTickDraws]
  · rw [step_drone_motion]
    rfl

/-- Claim C8: the orbiting-track position function returns the identical
latitude/longitude pair at phase angle `θ` and `θ + 2π`. -/
theorem position_on_circle_periodic (center_lat center_lon radius_m θ : ℝ) :
    position_on_circle center_lat center_lon radius_m (θ + 2 * Real.pi) =
      position_on_circle center_lat center_lon radius_m θ := by
  simp [position_on_circle, Real.sin_add_two_pi, Real.cos_add_two_pi]

/-- Claim C10: the `k`-th frame message of a run (0-indexed here: index `k`
is the `(k+1)`-th sent) carries `fram_id = str(k)`, and no other frame of the
run carries the same identifier, so identifiers are unique and strictly
increasing across the run. -/
theorem fram_id_sequence (args : SimArgs) (draws : ℕ → TickDraws)
    (init : List DroneState) (N k : ℕ) (f : Frame)
    (h : (frames_loop_run args draws N init 0).get? k = some f) :
    f.fram_id = toString k ∧
      ∀ (j : ℕ) (g : Frame),
        (frames_loop_run args draws N init 0).get? j = some g →
        g.fram_id = f.fram_id → j = k := by
  have h1 : f.fram_id = Nat.repr k := by
    simpa using frames_loop_run_get? args draws N init 0 k f h
  refine ⟨h1, ?_⟩
  intro j g hj hg
  have h2 : g.fram_id = Nat.repr j := by
    simpa using frames_loop_run_get? args draws N init 0 j g hj
  exact nat_repr_injective (by rw [← h2, hg, h1])

/-- Witness for C10: the first frame of the sample run carries
`fram_id = "0"`. -/
theorem fram_id_sequence_witness : sampleFrame0.fram_id = toString 0 :=
  (fram_id_sequence sampleArgs (fun _ => sampleTickDraws) [sampleDrone] 1 0
    sampleFrame0 rfl).1

/-! ## Claim theorems for the binary image sender -/

/-- Unfolding lemma for one iteration of the binary send loop. -/
theorem send_loop_succ (files : List DirEntry) (loop_flag : Bool) (fuel : ℕ)
    (ur : Option ℕ) (idx : ℕ) :
    send_loop files loop_flag (fuel + 1) ur idx =
      if ur = some 0 then some []
      else if files.length ≤ idx then
        if loop_flag then send_loop files loop_flag fuel ur 0 else some []
      else
        match files.get? idx with
        | none => some []
        | some f =>
            if f.readable then
              match send_loop files loop_flag fuel (dec_updates ur) (idx + 1) with
              | none => none
              | some rest => some (f :: rest)
            else send_loop files loop_flag fuel ur (idx + 1) := rfl

/-- With `--updates 0` (no counter) and looping disabled, one pass of the
send loop from index `idx` with `k` entries left (plus the final
check-and-break iteration) terminates and sends the readable remainder. -/
theorem send_loop_drop (files : List DirEntry) :
    ∀ (k idx : ℕ), files.length = idx + k →
      send_loop files false (k + 1) none idx =
        some ((files.drop idx).filter (·.readable))
  | 0, idx, h => by
      have hge : files.length ≤ idx := by omega
      have hdrop : files.drop idx = [] := List.drop_eq_nil_of_le (by omega)
      rw [send_loop_succ, if_neg (by simp), if_pos hge, if_neg (by simp), hdrop]
      rfl
  | k + 1, idx, h => by
      have hlt : idx < files.length := by omega
      have hget : files.get? idx = some files[idx] := List.get?_eq_get hlt
      have ih := send_loop_drop files k (idx + 1) (by omega)
      have hdrop : files.drop idx = files[idx] :: files.drop (idx + 1) :=
        List.drop_eq_getElem_cons hlt
      rw [send_loop_succ, if_neg (by simp), if_neg (Nat.not_le.mpr hlt), hget]
      dsimp only [dec_updates]
      by_cases hr : files[idx].readable = true
      · rw [if_pos hr, ih]
        dsimp only
        rw [hdrop, List.filter_cons, if_pos (by simpa using hr)]
      · rw [if_neg hr, ih, hdrop, List.filter_cons, if_neg (by simpa using hr)]

/-- Claim C9: with update count `0` and looping disabled, the binary sender
sends every readable image file of the frames directory exactly once, in
ascending lexicographic filename order, then stops on its own (the loop
returns within `length + 1` iterations); an unreadable file is skipped and
not counted. -/
theorem send_all_images_once (entries : List DirEntry) :
    send_loop (get_image_files entries) false
        ((get_image_files entries).length + 1) none 0
      = some ((get_image_files entries).filter (·.readable)) ∧
    List.Pairwise (fun a b : DirEntry => a.name ≤ b.name)
      (get_image_files entries) ∧
    (∀ f : DirEntry, f.readable = true →
      ((get_image_files entries).filter (·.readable)).count f
        = (get_image_files entries).count f) ∧
    ∀ f : DirEntry, f.readable = false →
      f ∉ (get_image_files entries).filter (·.readable) := by
  refine ⟨send_loop_drop (get_image_files entries) _ 0 (by omega), ?_, ?_, ?_⟩
  · have hs := @List.sorted_mergeSort DirEntry
      (fun a b : DirEntry => decide (a.name ≤ b.name))
      (fun a b c hab hbc => by
        simp only [decide_eq_true_eq] at *
        exact le_trans hab hbc)
      (fun a b => by
        simp only [Bool.or_eq_true, decide_eq_true_eq]
        exact le_total a.name b.name)
      (entries.filter fun f => f.is_file && image_extensions.contains f.suffix)
    exact hs.imp (by simp)
  · intro f hf
    exact List.count_filter (by simpa using hf)
  · intro f hf hmem
    have := List.of_mem_filter hmem
    simp [hf] at this

/-- Witness for C9: a three-entry directory (one unreadable file, one
non-image entry) yields the two image files, the readable one sent once. -/
theorem send_all_images_once_witness :
    send_loop (get_image_files
        [⟨"b.png", true, ".png", true⟩, ⟨"a.png", true, ".png", false⟩,
          ⟨"notes.txt", true, ".txt", true⟩]) false
        ((get_image_files
          [⟨"b.png", true, ".png", true⟩, ⟨"a.png", true, ".png", false⟩,
            ⟨"notes.txt", true, ".txt", true⟩]).length + 1) none 0
      = some ((get_image_files
          [⟨"b.png", true, ".png", true⟩, ⟨"a.png", true, ".png", false⟩,
            ⟨"notes.txt", true, ".txt", true⟩]).filter (·.readable)) ∧
    ((get_image_files
        [⟨"b.png", true, ".png", true⟩, ⟨"a.png", true, ".png", false⟩,
          ⟨"notes.txt", true, ".txt", true⟩]).filter (·.readable)).count
        ⟨"b.png", true, ".png", true⟩
      = (get_image_files
          [⟨"b.png", true, ".png", true⟩, ⟨"a.png", true, ".png", false⟩,
            ⟨"notes.txt", true, ".txt", true⟩]).count ⟨"b.png", true, ".png", true⟩ ∧
    (⟨"a.png", true, ".png", false⟩ : DirEntry) ∉
      (get_image_files
        [⟨"b.png", true, ".png", true⟩, ⟨"a.png", true, ".png", false⟩,
          ⟨"notes.txt", true, ".txt", true⟩]).filter (·.readable) := by
  have h := send_all_images_once
    [⟨"b.png", true, ".png", true⟩, ⟨"a.png", true, ".png", false⟩,
      ⟨"notes.txt", true, ".txt", true⟩]
  exact ⟨h.1, h.2.2.1 _ rfl, h.2.2.2 _ rfl⟩

/-! ## Claim theorems for the frame extractor -/

/-- Unfolding lemma for one iteration of the extraction loop. -/
theorem extract_loop_succ (step : ℕ) (mf : Option ℕ) (ok : ℕ → Bool)
    (fuel cur fc sc : ℕ) :
    extract_loop step mf ok (fuel + 1) cur fc sc =
      if ok cur then
        if fc % step = 0 then
          if max_reached mf (sc + 1) then [cur]
          else cur :: extract_loop step mf ok fuel (cur + 1) (fc + 1) (sc + 1)
        else extract_loop step mf ok fuel (cur + 1) (fc + 1) sc
      else [] := rfl

/-- With every read succeeding and no `--max-frames` bound, the extraction
loop saves exactly the indices `cur + k`, `k < fuel`, whose frame counter
`fc + k` is a multiple of the step. -/
theorem extract_loop_all (step : ℕ) :
    ∀ (fuel cur fc sc : ℕ),
      extract_loop step none (fun _ => true) fuel cur fc sc =
        ((List.range fuel).filter fun k => (fc + k) % step == 0).map (cur + ·)
  | 0, _, _, _ => rfl
  | fuel + 1, cur, fc, sc => by
      have ih := extract_loop_all step fuel (cur + 1) (fc + 1) sc
      have ih2 := extract_loop_all step fuel (cur + 1) (fc + 1) (sc + 1)
      have hf : ∀ k ∈ List.range fuel,
          ((fun k => (fc + k) % step == 0) ∘ Nat.succ) k =
            ((fc + 1 + k) % step == 0) := by
        intro k _
        simp only [Function.comp_apply]
        have e : fc + Nat.succ k = fc + 1 + k := by omega
        rw [e]
      have hm : ∀ k ∈ (List.range fuel).filter fun k => (fc + 1 + k) % step == 0,
          ((fun x => cur + x) ∘ Nat.succ) k = (cur + 1) + k := by
        intro k _
        simp only [Function.comp_apply]
        omega
      have key : (((List.range fuel).map Nat.succ).filter
            (fun k => (fc + k) % step == 0)).map (cur + ·) =
          ((List.range fuel).filter fun k => (fc + 1 + k) % step == 0).map
            (fun k => (cur + 1) + k) := by
        rw [List.filter_map, List.map_map, List.filter_congr hf,
          List.map_congr_left hm]
      rw [extract_loop_succ, List.range_succ_eq_map, List.filter_cons]
      have hmr : max_reached none (sc + 1) = false := rfl
      by_cases h : fc % step = 0
      · have hp : ((fc + 0) % step == 0) = true := by simpa using h
        rw [hmr, hp]
        simp only [if_true, if_false, Bool.false_eq_true, ite_false, ite_true,
          List.map_cons, Nat.add_zero, ih2, key]
        rw [if_pos h]
      · have hp : ((fc + 0) % step == 0) = false := by simpa using h
        rw [hmr, hp]
        simp only [if_true, Bool.false_eq_true, ite_false, ih, key]
        rw [if_neg h]

/-- The multiples of `step` below `n`, as a filter of `range n` and as an
explicit arithmetic progression of length `⌈n / step⌉`. -/
theorem range_filter_mod (step : ℕ) (hs : 0 < step) :
    ∀ n : ℕ, ((List.range n).filter fun k => k % step == 0) =
      (List.range ((n + step - 1) / step)).map (· * step)
  | 0 => by
      have : (step - 1) / step = 0 := Nat.div_eq_of_lt (by omega)
      simp [this]
  | n + 1 => by
      have ih := range_filter_mod step hs n
      rw [List.range_succ, List.filter_append, ih]
      by_cases h : n % step = 0
      · have hq : step * (n / step) = n := Nat.mul_div_cancel' (Nat.dvd_of_mod_eq_zero h)
        set q := n / step with hqdef
        have hexp : step * (q + 1) = step * q + step := Nat.mul_succ step q
        have h1 : (n + step - 1) / step = q := by
          have he : n + step - 1 = step * q + (step - 1) := by omega
          rw [he, Nat.mul_add_div hs, Nat.div_eq_of_lt (by omega)]
          omega
        have h2 : (n + 1 + step - 1) / step = q + 1 := by
          have he : n + 1 + step - 1 = step * (q + 1) := by omega
          rw [he, Nat.mul_div_cancel_left _ hs]
        rw [h1, h2, List.range_succ, List.map_append]
        simp [h, hq, Nat.mul_comm]
      · have hq : step * (n / step) + n % step = n := Nat.div_add_mod n step
        have hrlt : n % step < step := Nat.mod_lt _ hs
        set q := n / step with hqdef
        set r := n % step with hrdef
        have hexp : step * (q + 1) = step * q + step := Nat.mul_succ step q
        have hr1 : 1 ≤ r := by omega
        have h1 : (n + step - 1) / step = q + 1 := by
          have he : n + step - 1 = step * (q + 1) + (r - 1) := by omega
          rw [he, Nat.mul_add_div hs, Nat.div_eq_of_lt (by omega)]
        have h2 : (n + 1 + step - 1) / step = q + 1 := by
          have he : n + 1 + step - 1 = step * (q + 1) + r := by omega
          rw [he, Nat.mul_add_div hs, Nat.div_eq_of_lt (by omega)]
        rw [h1, h2]
        simp [h]

/-- Claim C5: with `--interval I` on a video of FPS `F` (both positive), the
extractor uses frame step `max(1, ⌊I·F⌋)` and, when every read succeeds and
no `--max-frames` bound is given, writes exactly the frames at indices
`start`, `start + step`, `start + 2·step`, … below the end boundary; with no
interval it writes every frame from `start` up to the boundary. -/
theorem extract_frames_selection (I F : ℚ) (s e : ℕ) (hI : 0 < I) (hF : 0 < F) :
    frame_step (some I) F = max 1 (Int.toNat ⌊I * F⌋) ∧
    extract_saved s e (frame_step (some I) F) none (fun _ => true) =
      (List.range ((e - s + frame_step (some I) F - 1) / frame_step (some I) F)).map
        (fun k => s + k * frame_step (some I) F) ∧
    extract_saved s e (frame_step none F) none (fun _ => true) =
      (List.range (e - s)).map (fun k => s + k) := by
  have hprod : (0 : ℚ) ≤ I * F := le_of_lt (mul_pos hI hF)
  have hstep : frame_step (some I) F = max 1 (Int.toNat ⌊I * F⌋) := by
    rw [frame_step, if_neg (ne_of_gt hI), pyInt, if_pos hprod]
  have hpos : 0 < frame_step (some I) F := by
    rw [hstep]
    omega
  refine ⟨hstep, ?_, ?_⟩
  · rw [extract_saved, extract_loop_all]
    have hz : (fun k => (0 + k) % frame_step (some I) F == 0) =
        (fun k => k % frame_step (some I) F == 0) := by
      funext k
      rw [Nat.zero_add]
    rw [hz, range_filter_mod _ hpos, List.map_map]
    exact List.map_congr_left fun k _ => by simp [Function.comp]
  · rw [extract_saved, extract_loop_all]
    have hone : frame_step none F = 1 := rfl
    rw [hone]
    have : (fun k : ℕ => (0 + k) % 1 == 0) = fun _ : ℕ => true := by
      funext k
      simp [Nat.mod_one]
    rw [this, List.filter_true]

/-- Witness for C5 at `--interval 0.5` on a 30-FPS video, frames 0 to 31:
step 15, saved frames 0, 15, 30. -/
theorem extract_frames_selection_witness :
    frame_step (some (1/2)) 30 = max 1 (Int.toNat ⌊(1/2 : ℚ) * 30⌋) ∧
    extract_saved 0 31 (frame_step (some (1/2)) 30) none (fun _ => true) =
      (List.range ((31 - 0 + frame_step (some (1/2)) 30 - 1) /
          frame_step (some (1/2)) 30)).map
        (fun k => 0 + k * frame_step (some (1/2)) 30) ∧
    extract_saved 0 31 (frame_step none 30) none (fun _ => true) =
      (List.range (31 - 0)).map (fun k => 0 + k) :=
  extract_frames_selection (1/2) 30 0 31 (by norm_num) (by norm_num)

/-! ## Claim theorems for error handling (C6, C7) and the resizer (C4) -/

/-- Counterexample for C6: the resizer and the frame extractor exit with
code `1`, not `2`, when argument validation rejects (e.g. missing required
size arguments, or a negative interval). -/
theorem exit_code_counterexample :
    resize_main_exit false 0 = 1 ∧ mp4_main_exit false 0 = 1 ∧
      resize_main_exit false 0 ≠ 2 ∧ mp4_main_exit false 0 ≠ 2 := by
  decide

/-- Claim C6 (amended): the two WebSocket simulators exit `2` on invalid
arguments, `1` on connection (or directory) failure, `0` on success and `1`
on a loop error; the resizer and frame extractor exit `1` (not `2`) on
invalid arguments, `0` when at least one item succeeded, and `1` when
nothing succeeded. -/
theorem exit_codes_by_tool :
    (∀ (c : Bool) (o : LoopEnd), telemetry_main_exit false c o = 2) ∧
    (∀ (c f : Bool) (o : LoopEnd), binary_main_exit false c f o = 2) ∧
    (∀ s : ℕ, resize_main_exit false s = 1) ∧
    (∀ s : ℕ, mp4_main_exit false s = 1) ∧
    (∀ o : LoopEnd, telemetry_main_exit true false o = 1) ∧
    (∀ (f : Bool) (o : LoopEnd), binary_main_exit true false f o = 1) ∧
    (∀ o : LoopEnd, binary_main_exit true true false o = 1) ∧
    (∀ s : ℕ, 0 < s → resize_main_exit true s = 0) ∧
    resize_main_exit true 0 = 1 ∧
    (∀ s : ℕ, 0 < s → mp4_main_exit true s = 0) ∧
    mp4_main_exit true 0 = 1 ∧
    telemetry_main_exit true true .completed = 0 ∧
    telemetry_main_exit true true .connection_closed = 0 ∧
    telemetry_main_exit true true .interrupted = 0 ∧
    telemetry_main_exit true true .errored = 1 ∧
    binary_main_exit true true true .completed = 0 ∧
    binary_main_exit true true true .errored = 1 := by
  refine ⟨fun c o => rfl, fun c f o => rfl, fun s => rfl, fun s => rfl,
    fun o => rfl, fun f o => rfl, fun o => rfl, ?_, rfl, ?_, rfl,
    rfl, rfl, rfl, rfl, rfl, rfl⟩
  · intro s hs
    simp [resize_main_exit, hs]
  · intro s hs
    simp [mp4_main_exit, hs]

/-- Witness for C6 (amended) at concrete success counts. -/
theorem exit_codes_by_tool_witness :
    resize_main_exit true 3 = 0 ∧ mp4_main_exit true 2 = 0 :=
  ⟨exit_codes_by_tool.2.2.2.2.2.2.2.1 3 (by norm_num),
    exit_codes_by_tool.2.2.2.2.2.2.2.2.2.1 2 (by norm_num)⟩

/-- A saved frame index is only reached after every frame from the start of
the window up to it (inclusive) decoded successfully: one failed
`cap.read()` truncates the extraction at that point. -/
theorem extract_loop_all_reads_ok (step : ℕ) (mf : Option ℕ) (ok : ℕ → Bool) :
    ∀ (fuel cur fc sc i : ℕ), i ∈ extract_loop step mf ok fuel cur fc sc →
      ∀ j, cur ≤ j → j ≤ i → ok j = true
  | 0, _, _, _, _, hmem => by simp [extract_loop] at hmem
  | fuel + 1, cur, fc, sc, i, hmem => by
      intro j hj1 hj2
      rw [extract_loop_succ] at hmem
      by_cases hok : ok cur = true
      · rw [if_pos hok] at hmem
        rcases Nat.eq_or_lt_of_le hj1 with hj | hj
        · rwa [← hj]
        · by_cases hstep : fc % step = 0
          · rw [if_pos hstep] at hmem
            by_cases hmr : max_reached mf (sc + 1) = true
            · rw [if_pos hmr] at hmem
              have : i = cur := by simpa using hmem
              omega
            · rw [if_neg hmr] at hmem
              rcases List.mem_cons.mp hmem with hic | hic
              · omega
              · exact extract_loop_all_reads_ok step mf ok fuel (cur + 1) (fc + 1)
                  (sc + 1) i hic j hj hj2
          · rw [if_neg hstep] at hmem
            exact extract_loop_all_reads_ok step mf ok fuel (cur + 1) (fc + 1)
              sc i hmem j hj hj2
      · rw [if_neg hok] at hmem
        simp at hmem

/-- Counterexample for C7: take a 3-frame window (step 1) where only frame 1
fails to decode. The extractor writes frame 0 and stops: frame 2 — readable
and selected — is never written, so a failed item is not skipped-and-
continued in the extractor. -/
theorem extractor_skip_counterexample :
    extract_saved 0 3 1 none (fun f => f != 1) = [0] ∧
      (2 : ℕ) ∉ extract_saved 0 3 1 none (fun f => f != 1) := by
  decide

/-- Claim C7 (amended): in the resizer a per-item failure is caught and
skipped and the batch continues — the success count over any list with a
failure in the middle is the sum of the successes around it, every item is
attempted, and the run reports successes out of attempted; in the frame
extractor, by contrast, a frame index is only written if every read up to it
succeeded (a failed decode truncates the run, reporting the partial count). -/
theorem per_item_failure_handling :
    (∀ xs ys : List Bool,
      (resize_batch (xs ++ false :: ys)).1 =
        (resize_batch xs).1 + (resize_batch ys).1 ∧
      (resize_batch (xs ++ false :: ys)).2 =
        (resize_batch xs).2 + (resize_batch ys).2 + 1) ∧
    (∀ l : List Bool, (resize_batch l).1 = l.count true ∧
      (resize_batch l).2 = l.length) ∧
    ∀ (step : ℕ) (mf : Option ℕ) (ok : ℕ → Bool) (s e i : ℕ),
      i ∈ extract_saved s e step mf ok → ∀ j, s ≤ j → j ≤ i → ok j = true := by
  have hcount : ∀ l : List Bool, (resize_batch l).1 = l.count true ∧
      (resize_batch l).2 = l.length := by
    intro l
    induction l with
    | nil => exact ⟨rfl, rfl⟩
    | cons a l ih =>
        cases a <;> simp [resize_batch, ih.1, ih.2, List.count_cons] <;> omega
  refine ⟨?_, hcount, ?_⟩
  · intro xs ys
    constructor
    · rw [(hcount _).1, (hcount _).1, (hcount _).1, List.count_append,
        List.count_cons]
      simp
    · rw [(hcount _).2, (hcount _).2, (hcount _).2, List.length_append]
      simp
      omega
  · intro step mf ok s e i hmem j hj1 hj2
    exact extract_loop_all_reads_ok step mf ok (e - s) s 0 0 i hmem j hj1 hj2

/-- Witness for C7 (amended): a corrupt image between two good ones still
yields 2 successes of 3 attempts in the resizer, while in the extractor the
saved frame 0 required read 0 to succeed. -/
theorem per_item_failure_handling_witness :
    (resize_batch ([true] ++ false :: [true])).1 =
      (resize_batch [true]).1 + (resize_batch [true]).1 ∧
    (resize_batch [true, false, true]).1 = [true, false, true].count true ∧
    (fun f => f != 1) 0 = true := by
  have h := per_item_failure_handling
  refine ⟨(h.1 [true] [true]).1, (h.2.1 [true, false, true]).1, ?_⟩
  exact h.2.2 1 none (fun f => f != 1) 0 3 0 (by decide) 0 (by norm_num)
    (by norm_num)

/-- The width-only branch of `resize_image`'s size computation: the derived
height is the floor of `h·W/w` (Python `int()` truncates, and the value is
nonnegative). -/
theorem resize_image_size_width_eq (w h W : ℕ) (hw : 0 < w) (hW : 0 < W) :
    resize_image_size w h none (some W) none = some (W, h * W / w) := by
  have htr : truthy (some W) = true := by
    simp [truthy]
    omega
  have hq : (0 : ℚ) ≤ (h : ℚ) * ((W : ℚ) / (w : ℚ)) := by positivity
  rw [resize_image_size]
  simp only [Option.isSome_none, Bool.false_eq_true, if_false, htr, if_true,
    Option.getD_some]
  congr 1
  rw [pyInt, if_pos hq]
  have harg : (h : ℚ) * ((W : ℚ) / (w : ℚ)) = ((h * W : ℕ) : ℚ) / (w : ℚ) := by
    push_cast
    ring
  rw [harg, Int.floor_toNat, Nat.floor_div_nat, Nat.floor_natCast]

/-- Counterexample for C4: a 4×3 image resized with `--width 2` gets height
`int(3 * (2/4)) = 1`, while `round(3 * 2 / 4) = 2`: the code truncates, it
does not round. -/
theorem resize_width_round_counterexample :
    resize_image_size 4 3 none (some 2) none = some (2, 1) ∧
      round ((3 : ℚ) * 2 / 4) = 2 := by
  constructor
  · rw [resize_image_size_width_eq 4 3 2 (by norm_num) (by norm_num)]
  · have h1 : ((3 : ℚ) * 2 / 4) = 3 / 2 := by norm_num
    rw [h1, round_eq]
    have h2 : (3 / 2 + 1 / 2 : ℚ) = ((2 : ℤ) : ℚ) := by norm_num
    rw [h2, Int.floor_intCast]

/-- Claim C4 (amended): resizing with only a target width `W` produces
height `⌊original_height · W / original_width⌋` (Python `int()` truncation,
which for these nonnegative values is the floor — one less than rounding
whenever the fractional part is at least one half). -/
theorem resize_width_floor (w h W : ℕ) (hw : 0 < w) (hW : 0 < W) :
    resize_image_size w h none (some W) none = some (W, h * W / w) :=
  resize_image_size_width_eq w h W hw hW

/-- Witness for C4 (amended) at the 4×3 image with `--width 2`. -/
theorem resize_width_floor_witness :
    resize_image_size 4 3 none (some 2) none = some (2, 3 * 2 / 4) :=
  resize_width_floor 4 3 2 (by norm_num) (by norm_num)

end DroneSim
